import Mathlib

/-!
Verification development for the pyKBoot command-line tool
(src/kboot_cli/main.py).  The Python source is shallowly embedded:
pure helpers (integer parsing, file-format detection, Intel-hex
normalisation, offset slicing, backdoor-key decoding, hexdump
rendering) become Lean functions, and each CLI workflow becomes a
function from an environment of oracles (device-call outcomes, file
system) to the trace of device calls it issues together with its
outcome (success or an error message), mirroring the exception flow
of the script including the top-level handler in `main`.
-/

/-! ### Python `int(s, base)` parsing (used by `int(addr, 0)`, `int(key[i:i+2], 16)`, `int(c, 10)`) -/

/-- Characters stripped by Python `int(str, base)` before parsing. -/
def isPySpace (c : Char) : Bool :=
  c = ' ' || c = '\t' || c = '\n' || c = '\x0d' || c = '\x0c' || c = '\x0b'

/-- Strip leading and trailing whitespace, as Python `int` does. -/
def pyStrip (cs : List Char) : List Char :=
  ((cs.dropWhile isPySpace).reverse.dropWhile isPySpace).reverse

/-- Value of a single digit character in the given base, as Python accepts
(decimal digits plus letters of either case). -/
def digitVal (base : Nat) (c : Char) : Option Nat :=
  let v : Option Nat :=
    if '0' ≤ c ∧ c ≤ '9' then some (c.toNat - 48)
    else if 'a' ≤ c ∧ c ≤ 'z' then some (c.toNat - 87)
    else if 'A' ≤ c ∧ c ≤ 'Z' then some (c.toNat - 55)
    else none
  match v with
  | some n => if n < base then some n else none
  | none => none

/-- Digits after the first one: Python allows single underscores strictly
between digits (`1_0` is fine, `1__0`, `1_` are not). -/
def digitsTail (base acc : Nat) : List Char → Option Nat
  | [] => some acc
  | ['_'] => none
  | '_' :: d :: rest =>
    match digitVal base d with
    | some v => digitsTail base (acc * base + v) rest
    | none => none
  | c :: rest =>
    match digitVal base c with
    | some v => digitsTail base (acc * base + v) rest
    | none => none

/-- A non-empty digit string: first character must be a digit. -/
def digitsVal (base : Nat) : List Char → Option Nat
  | [] => none
  | c :: rest =>
    match digitVal base c with
    | some v => digitsTail base v rest
    | none => none

/-- Digit string directly after a base marker such as `0x`: Python allows a
single leading underscore there (`0x_1`). -/
def digitsAfterBase (base : Nat) : List Char → Option Nat
  | '_' :: rest => digitsVal base rest
  | l => digitsVal base l

/-- Body of Python `int(s, base)` once whitespace and sign are gone, for the
bases the tool uses (16, 10, 8, 2 and the literal-detecting base 0). -/
def pyIntBody (base : Nat) (cs : List Char) : Option Nat :=
  match base, cs with
  | 16, '0' :: x :: rest =>
    if x = 'x' ∨ x = 'X' then digitsAfterBase 16 rest else digitsVal 16 cs
  | 16, _ => digitsVal 16 cs
  | 0, '0' :: x :: rest =>
    if x = 'x' ∨ x = 'X' then digitsAfterBase 16 rest
    else if x = 'o' ∨ x = 'O' then digitsAfterBase 8 rest
    else if x = 'b' ∨ x = 'B' then digitsAfterBase 2 rest
    else
      match digitsVal 10 cs with
      | some v => if v = 0 then some 0 else none
      | none => none
  | 0, _ =>
    match digitsVal 10 cs with
    | some v =>
      if cs.head? = some '0' ∧ v ≠ 0 then none else some v
    | none => none
  | b, _ => digitsVal b cs

/-- Python `int(s, base)` for the bases used by the tool: strips whitespace,
accepts one optional sign, then the base-specific body. -/
def pyInt (base : Nat) (s : String) : Option Int :=
  match pyStrip s.data with
  | '+' :: rest => (pyIntBody base rest).map (fun v => (v : Int))
  | '-' :: rest => (pyIntBody base rest).map (fun v => -(v : Int))
  | rest => (pyIntBody base rest).map (fun v => (v : Int))

/-! ### String helpers mirroring Python `str.lower` / `str.endswith` -/

/-- Python `str.lower` (ASCII behaviour). -/
def pyLower (s : String) : String := String.mk (s.data.map Char.toLower)

/-- Python `str.endswith` for a single suffix. -/
def endsWithExt (s suffix : String) : Bool :=
  suffix.data.isSuffixOf s.data

/-! ### File format detection (main.py lines 194 and 202-219) -/

inductive FileFormat where
  | RawBinary
  | IntelHexRecord
  | MotorolaSRecord
deriving DecidableEq, Repr

/-- The guard `file.lower().endswith(('.bin', '.hex', '.s19', '.srec'))`
from the `write` and `read` commands. -/
def supportedExt (file : String) : Bool :=
  endsWithExt (pyLower file) ".bin" || endsWithExt (pyLower file) ".hex" ||
  endsWithExt (pyLower file) ".s19" || endsWithExt (pyLower file) ".srec"

/-- Format chosen by the source: the supported-extension guard followed by
the `.bin` / `.hex` / else-SRecord dispatch of the loader. -/
def detectFormat (file : String) : Option FileFormat :=
  if supportedExt file = false then none
  else if endsWithExt (pyLower file) ".bin" then some FileFormat.RawBinary
  else if endsWithExt (pyLower file) ".hex" then some FileFormat.IntelHexRecord
  else some FileFormat.MotorolaSRecord

/-- Modelled from the spec's words (as amended): case-insensitive extension
match mapping `.bin` to RawBinary, `.hex` to IntelHexRecord and
`.s19`/`.srec` to MotorolaSRecord, any other extension rejected. -/
def specFormatOf (file : String) : Option FileFormat :=
  if endsWithExt (pyLower file) ".bin" then some FileFormat.RawBinary
  else if endsWithExt (pyLower file) ".hex" then some FileFormat.IntelHexRecord
  else if endsWithExt (pyLower file) ".s19" || endsWithExt (pyLower file) ".srec" then
    some FileFormat.MotorolaSRecord
  else none

/-! ### Intel-hex normalisation (main.py lines 214-217) -/

/-- `max(dhex.keys())` over the parsed sparse dictionary (nonempty case). -/
def dictMax (d : List (Nat × Nat)) : Nat :=
  d.foldl (fun m p => max m p.1) 0

/-- `data = [0xFF]*(max(dhex.keys()) + 1)` followed by `data[i] = val` for
each entry of the dictionary. -/
def loadHexData (d : List (Nat × Nat)) : List Nat :=
  d.foldl (fun a p => a.set p.1 p.2) (List.replicate (dictMax d + 1) 255)

/-! ### Offset application (main.py lines 230-231) -/

/-- Python slice `l[i:]`, including the clamping rules for negative `i`. -/
def pySliceFrom (l : List Nat) (i : Int) : List Nat :=
  if 0 ≤ i then l.drop i.toNat else l.drop (((l.length : Int) + i).toNat)

/-- `if foffset < len(data): data = data[foffset:]` — the data is sliced only
when the offset is strictly below its length, otherwise left untouched. -/
def applyOffset (data : List Nat) (foffset : Int) : List Nat :=
  if foffset < (data.length : Int) then pySliceFrom data foffset else data

/-! ### Backdoor-key decoding (main.py lines 338-351) -/

/-- The loop `for i in range(0, len(key), 2): int(key[i:i+2], 16)` over the
remaining characters, two at a time (the final slice may be a single
character). -/
def hexPairs : List Char → Option (List Int)
  | [] => some []
  | [a] =>
    match pyInt 16 (String.mk [a]) with
    | some v => some [v]
    | none => none
  | a :: b :: rest =>
    match pyInt 16 (String.mk [a, b]), hexPairs rest with
    | some v, some l => some (v :: l)
    | _, _ => none

/-- The key-decoding logic of the `unlock` command: `S`-prefixed keys are
taken as character codes after dropping two characters (length at least 18
required), any other first character selects the hex branch (length at
least 34 required, first two characters dropped unchecked, remaining
characters parsed as pairs through `int(s, 16)`).  An empty key string hits
`key[0]` and raises an IndexError. -/
def parseBackdoorKey (key : String) : Except String (List Int) :=
  match key.data with
  | [] => Except.error "IndexError: string index out of range"
  | c :: _ =>
    if c = 'S' then
      if key.length < 18 then Except.error "Short key, use 16 ASCII chars !"
      else Except.ok ((key.data.drop 2).map (fun k => (k.toNat : Int)))
    else
      if key.length < 34 then Except.error "Short key, use 32 HEX chars !"
      else
        match hexPairs (key.data.drop 2) with
        | some l => Except.ok l
        | none => Except.error "Unsupported HEX char in Key !"

/-! ### Hexdump rendering (main.py lines 32-101) -/

/-- One uppercase hex digit. -/
def hexDigitChar (n : Nat) : Char :=
  if n < 10 then Char.ofNat (48 + n) else Char.ofNat (55 + n)

/-- Hex digits of `n`, least significant first. -/
def natToHexRev (n : Nat) : List Char :=
  if h : n = 0 then [] else hexDigitChar (n % 16) :: natToHexRev (n / 16)
termination_by n
decreasing_by exact Nat.div_lt_self (Nat.pos_of_ne_zero h) (by norm_num)

/-- Python zero-padded uppercase hex formatting of `n` to width `w`. -/
def fmtHex (n w : Nat) : String :=
  let ds := if n = 0 then ['0'] else (natToHexRev n).reverse
  String.mk (List.replicate (w - ds.length) '0' ++ ds)

/-- A run of spaces. -/
def spacesStr (n : Nat) : String := String.mk (List.replicate n ' ')

/-- The hex area of a row: two uppercase hex digits and a space per byte. -/
def hexArea (bs : List Nat) : String :=
  String.join (bs.map (fun h => fmtHex h 2 ++ " "))

/-- The ASCII area of a row: printable characters verbatim, the separator
character otherwise (`0x20 <= c < 0x7F`). -/
def textArea (sep : Char) (bs : List Nat) : String :=
  String.mk (bs.map (fun c => if 32 ≤ c ∧ c < 127 then Char.ofNat c else sep))

/-- Python `'%-Ns' % s`: pad on the right with spaces to width `w`. -/
def padRightStr (s : String) (w : Nat) : String :=
  s ++ spacesStr (w - s.length)

/-- The hexdump header line. -/
def hexdumpHeader (w : Nat) : String :=
  "  address | " ++ String.join ((List.range w).map (fun i => fmtHex i 2 ++ " ")) ++
  "| " ++ String.join ((List.range w).map (fun i => fmtHex i 1))

/-- The separator rule of the dump. -/
def dashLine (w : Nat) : String :=
  " " ++ String.mk (List.replicate (13 + 4 * w) '-')

/-- Row `k` of the dump (`i = k*w` in the Python loop): the first row is the
only one with `align` set, receiving `offset` blank hex columns and `offset`
blank ASCII columns before its `w - offset` data bytes. -/
def hexdumpRow (data : List Nat) (offset address w k : Nat) (sep : Char) : String :=
  let subSrc := if k = 0 then data.take (w - offset)
                else (data.drop (k * w - offset)).take w
  let hexa := (if k = 0 ∧ 0 < offset then spacesStr (3 * offset) else "") ++ hexArea subSrc
  let text := (if k = 0 ∧ 0 < offset then spacesStr offset else "") ++ textArea sep subSrc
  " " ++ fmtHex (address + k * w) 8 ++ " | " ++ padRightStr hexa (3 * w) ++ "| " ++ text

/-- The lines produced by `hexdump`: header, rule, one row per chunk of the
loop `for i in range(0, len(data) + offset, length)`, closing rule.  The row
width is clamped to 16 as in the source. -/
def hexdumpLines (data : List Nat) (saddr w0 : Nat) (sep : Char) : List String :=
  let w := if w0 > 16 then 16 else w0
  let offset := saddr % w
  let address := saddr - offset
  let n := (data.length + offset + w - 1) / w
  [hexdumpHeader w, dashLine w] ++
  (List.range n).map (fun k => hexdumpRow data offset address w k sep) ++ [dashLine w]

/-- `hexdump` returns the lines joined with newlines. -/
def hexdump (data : List Nat) (saddr w0 : Nat) (sep : Char) : String :=
  String.intercalate "\n" (hexdumpLines data saddr w0 sep)

/-! ### Workflow traces (main.py lines 104-404)

Each CLI command is embedded as a function from an oracle environment to
the trace of calls it performs on the `kboot` session object together with
its outcome: `none` for success, `some msg` for a raised exception with
message `msg`.  The top-level `main` wrapper catches any exception, calls
`disconnect` once more and reports the error. -/

inductive Ev where
  | scanUsb
  | connectDev
  | getMcuInfo
  | readMemory (a l : Int)
  | writeMemory (a : Int) (d : List Nat)
  | flashEraseAllUnsecure
  | flashEraseRegion (a l : Int)
  | flashSecurityDisable (k : List Int)
  | fillMemory (a l p : Int)
  | disconnect
  | saveOutput (f : String)
deriving DecidableEq, Repr

/-- A trace of session calls plus the outcome of the workflow. -/
abbrev Run := List Ev × Option String

/-- Oracles for everything outside the script: whether each device call
succeeds, the file system, and USB discovery. -/
structure Env where
  ok : Ev → Bool
  lexists : String → Bool
  binFile : String → Option (List Nat)
  hexFile : String → Option (List (Nat × Nat))
  srecFile : String → Option (List Nat × Int)
  saveOk : String → Bool
  nDevs : Nat
  selChar : String

/-- The `cli` group callback (lines 121-154): parse `--vid`/`--pid`, scan
for devices, pick one (interactively when several), connect. -/
def cliRun (env : Env) (vid pid : String) : Run :=
  match pyInt 0 vid with
  | none => ([], some ("Invalid value \"" ++ vid ++ "\" for \"--vid\" argument !"))
  | some _ =>
    match pyInt 0 pid with
    | none => ([], some ("Invalid value \"" ++ pid ++ "\" for \"--pid\" argument !"))
    | some _ =>
      if env.ok Ev.scanUsb = false then ([Ev.scanUsb], some "DeviceOperationFailed")
      else if env.nDevs = 0 then ([Ev.scanUsb], some "No MCU with KBoot detected !")
      else
        match (if 1 < env.nDevs then pyInt 10 env.selChar else some 0) with
        | none => ([Ev.scanUsb], some "ValueError: invalid literal for int() with base 10")
        | some idx =>
          if -(env.nDevs : Int) ≤ idx ∧ idx < (env.nDevs : Int) then
            if env.ok Ev.connectDev = true then ([Ev.scanUsb, Ev.connectDev], none)
            else ([Ev.scanUsb, Ev.connectDev], some "DeviceOperationFailed")
          else ([Ev.scanUsb], some "IndexError: list index out of range")

/-- The `info` command (lines 158-172). -/
def infoRun (env : Env) : Run :=
  if env.ok Ev.getMcuInfo = true then ([Ev.getMcuInfo, Ev.disconnect], none)
  else ([Ev.getMcuInfo], some "DeviceOperationFailed")

/-- The image-loading part of `write` (lines 200-227): dispatch on the
extension, `.bin` read verbatim, `.hex` through the IntelHex dictionary,
anything else through the S-record reader (which also overrides an
explicit zero start address). -/
def loadImage (env : Env) (file : String) (saddr : Int) : Except String (List Nat × Int) :=
  if endsWithExt (pyLower file) ".bin" then
    match env.binFile file with
    | none => Except.error ("IOError: could not read file [" ++ file ++ "]")
    | some raw => Except.ok (raw, saddr)
  else if endsWithExt (pyLower file) ".hex" then
    match env.hexFile file with
    | none => Except.error ("Could not read from file: " ++ file)
    | some dhex =>
      if dhex = [] then Except.error "ValueError: max() arg is an empty sequence"
      else Except.ok (loadHexData dhex, saddr)
  else
    match env.srecFile file with
    | none => Except.error ("Could not read from file: " ++ file)
    | some p => Except.ok (p.1, if saddr = 0 then p.2 else saddr)

/-- The device phase of `write` (lines 235-242): mass erase, then
`write_memory`, then `disconnect`. -/
def writeDevicePhase (env : Env) (saddr : Int) (data : List Nat) : Run :=
  if env.ok Ev.flashEraseAllUnsecure = false then
    ([Ev.flashEraseAllUnsecure], some "DeviceOperationFailed")
  else if env.ok (Ev.writeMemory saddr data) = false then
    ([Ev.flashEraseAllUnsecure, Ev.writeMemory saddr data], some "DeviceOperationFailed")
  else ([Ev.flashEraseAllUnsecure, Ev.writeMemory saddr data, Ev.disconnect], none)

/-- The `write` command (lines 176-244): argument parsing, extension guard,
the `os.path.lexists` guard exactly as written in the source, image load,
offset application, then the device phase. -/
def writeRun (env : Env) (addr offset file : String) : Run :=
  match pyInt 0 addr with
  | none => ([], some ("Invalid value \"" ++ addr ++ "\" for \"--addr\" argument !"))
  | some saddr =>
    match pyInt 0 offset with
    | none => ([], some ("Invalid value \"" ++ offset ++ "\" for \"--offset\" argument !"))
    | some foffset =>
      if file ≠ "" ∧ supportedExt file = false then ([], some "Not supported file type !")
      else if env.lexists file = true then
        ([], some ("File does not exist [" ++ file ++ "]"))
      else
        match loadImage env file saddr with
        | Except.error m => ([], some m)
        | Except.ok p => writeDevicePhase env p.2 (applyOffset p.1 foffset)

/-- Output-extension guard of `read`: Python `if file and not ...endswith`. -/
def badOutExt : Option String → Bool
  | none => false
  | some f => if f = "" then false else !(supportedExt f)

/-- The `read` command (lines 248-298): parse arguments, read memory,
disconnect, then either render a hexdump or save to a file; a failed save
raises after the command's own disconnect. -/
def readRun (env : Env) (addr lengthArg : String) (fileOpt : Option String) : Run :=
  match pyInt 0 addr with
  | none => ([], some ("Invalid value \"" ++ addr ++ "\" for \"--addr\" argument !"))
  | some saddr =>
    match pyInt 0 lengthArg with
    | none => ([], some ("Invalid value \"" ++ lengthArg ++ "\" for \"--length\" argument !"))
    | some dlen =>
      if badOutExt fileOpt = true then ([], some "Not supported file type !")
      else if env.ok (Ev.readMemory saddr dlen) = false then
        ([Ev.readMemory saddr dlen], some "DeviceOperationFailed")
      else
        match fileOpt with
        | none => ([Ev.readMemory saddr dlen, Ev.disconnect], none)
        | some f =>
          if env.saveOk f = true then
            ([Ev.readMemory saddr dlen, Ev.disconnect, Ev.saveOutput f], none)
          else
            ([Ev.readMemory saddr dlen, Ev.disconnect],
             some (if endsWithExt (pyLower f) ".bin" then
                     "IOError: could not write file [" ++ f ++ "]"
                   else "Could not write to file: " ++ f))

/-- Mass-erase path of `erase` and of keyless `unlock`. -/
def eraseAllPath (env : Env) : Run :=
  if env.ok Ev.flashEraseAllUnsecure = true then
    ([Ev.flashEraseAllUnsecure, Ev.disconnect], none)
  else ([Ev.flashEraseAllUnsecure], some "DeviceOperationFailed")

/-- The `erase` command (lines 302-326): `if mass or not length` selects the
full erase, otherwise the arguments are parsed and a region erase issued. -/
def eraseRun (env : Env) (addr : String) (lenOpt : Option String) (mass : Bool) : Run :=
  match lenOpt with
  | none => eraseAllPath env
  | some l =>
    if mass = true ∨ l = "" then eraseAllPath env
    else
      match pyInt 0 addr with
      | none => ([], some ("Invalid value \"" ++ addr ++ "\" for \"--addr\" argument !"))
      | some saddr =>
        match pyInt 0 l with
        | none => ([], some ("Invalid value \"" ++ l ++ "\" for \"--length\" argument !"))
        | some dlen =>
          if env.ok (Ev.flashEraseRegion saddr dlen) = true then
            ([Ev.flashEraseRegion saddr dlen, Ev.disconnect], none)
          else ([Ev.flashEraseRegion saddr dlen], some "DeviceOperationFailed")

/-- The `unlock` command (lines 330-357): keyless means mass erase, a key is
decoded by `parseBackdoorKey` and fed to `flash_security_disable`. -/
def unlockRun (env : Env) (keyOpt : Option String) : Run :=
  match keyOpt with
  | none => eraseAllPath env
  | some key =>
    match parseBackdoorKey key with
    | Except.error m => ([], some m)
    | Except.ok k =>
      if env.ok (Ev.flashSecurityDisable k) = true then
        ([Ev.flashSecurityDisable k, Ev.disconnect], none)
      else ([Ev.flashSecurityDisable k], some "DeviceOperationFailed")

/-- The `fill` command (lines 361-386); the error message for a bad pattern
names `--length`, as in the source. -/
def fillRun (env : Env) (addr lengthArg pattern : String) : Run :=
  match pyInt 0 addr with
  | none => ([], some ("\n Invalid value \"" ++ addr ++ "\" for \"--addr\" argument !\n"))
  | some saddr =>
    match pyInt 0 lengthArg with
    | none => ([], some ("\n Invalid value \"" ++ lengthArg ++ "\" for \"--length\" argument !\n"))
    | some slen =>
      match pyInt 0 pattern with
      | none => ([], some ("\n Invalid value \"" ++ pattern ++ "\" for \"--length\" argument !\n"))
      | some spat =>
        if env.ok (Ev.fillMemory saddr slen spat) = true then
          ([Ev.fillMemory saddr slen spat, Ev.disconnect], none)
        else ([Ev.fillMemory saddr slen spat], some "DeviceOperationFailed")

/-- The six orchestrated command workflows named by the specification. -/
inductive Cmd where
  | info
  | write (addr offset file : String)
  | read (addr lengthArg : String) (fileOpt : Option String)
  | erase (addr : String) (lenOpt : Option String) (mass : Bool)
  | unlock (keyOpt : Option String)
  | fill (addr lengthArg pattern : String)

/-- Dispatch a command body (run after the `cli` group callback). -/
def cmdRun (env : Env) : Cmd → Run
  | Cmd.info => infoRun env
  | Cmd.write a o f => writeRun env a o f
  | Cmd.read a l f => readRun env a l f
  | Cmd.erase a l m => eraseRun env a l m
  | Cmd.unlock k => unlockRun env k
  | Cmd.fill a l p => fillRun env a l p

/-- The `main` wrapper (lines 396-404): run the group callback, then the
command; any raised exception leads to one extra `disconnect` and the
error is reported. -/
def runMain (cliPart : Run) (cmdPart : Run) : Run :=
  match cliPart with
  | (tr, some m) => (tr ++ [Ev.disconnect], some m)
  | (tr, none) =>
    match cmdPart with
    | (tr2, none) => (tr ++ tr2, none)
    | (tr2, some m) => (tr ++ tr2 ++ [Ev.disconnect], some m)

/-- A complete process run of one command. -/
def mainRun (env : Env) (vid pid : String) (c : Cmd) : Run :=
  runMain (cliRun env vid pid) (cmdRun env c)

/-- Recogniser for `disconnect` events. -/
def isDisconnect : Ev → Bool
  | Ev.disconnect => true
  | _ => false

/-- Recogniser for `write_memory` events. -/
def isWriteMem : Ev → Bool
  | Ev.writeMemory _ _ => true
  | _ => false

/-- Recogniser for the mass-erase call. -/
def isEraseAll : Ev → Bool
  | Ev.flashEraseAllUnsecure => true
  | _ => false

/-- Recogniser for memory-touching device calls (erase, write, read, fill,
security disable). -/
def isMemOp : Ev → Bool
  | Ev.flashEraseAllUnsecure => true
  | Ev.flashEraseRegion _ _ => true
  | Ev.writeMemory _ _ => true
  | Ev.readMemory _ _ => true
  | Ev.fillMemory _ _ _ => true
  | Ev.flashSecurityDisable _ => true
  | _ => false

/-- True when some `write_memory` call occurs with no earlier mass-erase
call in the trace. -/
def writeBeforeErase : List Ev → Bool
  | [] => false
  | e :: rest =>
    if isWriteMem e then true
    else if isEraseAll e then false
    else writeBeforeErase rest

/-! ### Concrete environments used to evaluate the model -/

/-- One device, every call succeeds, every input file reads as the raw
binary `[1, 2, 3]`, nothing exists on disk for `os.path.lexists`. -/
def envOKBin : Env :=
  ⟨fun _ => true, fun _ => false, fun _ => some [1, 2, 3],
   fun _ => none, fun _ => none, fun _ => true, 1, "0"⟩

/-- One device, every call succeeds, but writing any output file fails. -/
def envSaveFail : Env :=
  ⟨fun _ => true, fun _ => false, fun _ => none,
   fun _ => none, fun _ => none, fun _ => false, 1, "0"⟩

/-- One device, every call succeeds, and every path exists on disk. -/
def envFileExists : Env :=
  ⟨fun _ => true, fun _ => true, fun _ => some [1, 2, 3],
   fun _ => none, fun _ => none, fun _ => true, 1, "0"⟩

/-- One device, every call succeeds, nothing exists on disk and every file
read fails. -/
def envMissingBin : Env :=
  ⟨fun _ => true, fun _ => false, fun _ => none,
   fun _ => none, fun _ => none, fun _ => true, 1, "0"⟩

/-- One device, every call succeeds, Intel-hex loads give the sparse
dictionary with the single entry `address 2 value 171`. -/
def envHexDict : Env :=
  ⟨fun _ => true, fun _ => false, fun _ => none,
   fun _ => some [(2, 171)], fun _ => none, fun _ => true, 1, "0"⟩

/-! ### Helper lemmas -/

theorem applyOffset_of_lt (data : List Nat) (n : Nat) (h : (n : Int) < (data.length : Int)) :
    applyOffset data n = data.drop n := by
  unfold applyOffset
  rw [if_pos h]
  unfold pySliceFrom
  rw [if_pos (Int.natCast_nonneg n)]
  simp

theorem applyOffset_of_ge (data : List Nat) (n : Int) (h : (data.length : Int) ≤ n) :
    applyOffset data n = data := by
  unfold applyOffset
  rw [if_neg (not_lt.mpr h)]

theorem writeDevicePhase_mem (env : Env) (s : Int) (d : List Nat)
    (h : env.ok Ev.flashEraseAllUnsecure = true) :
    Ev.writeMemory s d ∈ (writeDevicePhase env s d).1 := by
  unfold writeDevicePhase
  rw [h]
  rw [if_neg (by simp : ¬(true = false))]
  split <;> simp

theorem hexPairs_length : ∀ (cs : List Char) (l : List Int),
    hexPairs cs = some l → l.length = (cs.length + 1) / 2
  | [], l, h => by
    unfold hexPairs at h
    simp at h
    subst h
    rfl
  | [a], l, h => by
    unfold hexPairs at h
    cases hp : pyInt 16 (String.mk [a]) <;> rw [hp] at h
    · exact absurd h (by simp)
    · simp at h
      subst h
      simp
  | a :: b :: rest, l, h => by
    unfold hexPairs at h
    cases hp : pyInt 16 (String.mk [a, b]) <;> rw [hp] at h
    · exact absurd h (by simp)
    · cases hr : hexPairs rest <;> rw [hr] at h
      · exact absurd h (by simp)
      · simp at h
        subst h
        have ih := hexPairs_length rest _ hr
        simp [List.length_cons, ih]
        omega

theorem foldl_set_length (l : List (Nat × Nat)) (init : List Nat) :
    (l.foldl (fun a p => a.set p.1 p.2) init).length = init.length := by
  induction l generalizing init with
  | nil => rfl
  | cons p rest ih => simp [List.foldl_cons, ih, List.length_set]

theorem foldl_set_get_of_not_mem (l : List (Nat × Nat)) (init : List Nat) (i : Nat)
    (h : i ∉ l.map Prod.fst) :
    (l.foldl (fun a p => a.set p.1 p.2) init)[i]? = init[i]? := by
  induction l generalizing init with
  | nil => rfl
  | cons p rest ih =>
    simp only [List.map_cons, List.mem_cons, not_or] at h
    rw [List.foldl_cons, ih _ h.2, List.getElem?_set_ne (Ne.symm h.1)]

theorem foldl_set_get_of_mem (l : List (Nat × Nat)) (init : List Nat) (i v : Nat)
    (hmem : (i, v) ∈ l) (hnd : (l.map Prod.fst).Nodup) (hlen : i < init.length) :
    (l.foldl (fun a p => a.set p.1 p.2) init)[i]? = some v := by
  induction l generalizing init with
  | nil => cases hmem
  | cons p rest ih =>
    rw [List.foldl_cons]
    simp only [List.map_cons, List.nodup_cons] at hnd
    rcases List.mem_cons.mp hmem with heq | hmem2
    · subst heq
      rw [foldl_set_get_of_not_mem rest _ i hnd.1]
      exact List.getElem?_set_eq hlen
    · exact ih (init.set p.1 p.2) hmem2 hnd.2 (by rw [List.length_set]; exact hlen)

theorem foldl_max_le_acc (l : List (Nat × Nat)) (acc : Nat) :
    acc ≤ l.foldl (fun m p => max m p.1) acc := by
  induction l generalizing acc with
  | nil => exact le_refl acc
  | cons p rest ih => exact le_trans (le_max_left acc p.1) (ih (max acc p.1))

theorem mem_le_foldl_max (l : List (Nat × Nat)) (acc : Nat) (p : Nat × Nat) (h : p ∈ l) :
    p.1 ≤ l.foldl (fun m q => max m q.1) acc := by
  induction l generalizing acc with
  | nil => cases h
  | cons q rest ih =>
    rcases List.mem_cons.mp h with heq | hmem
    · subst heq
      exact le_trans (le_max_right acc p.1) (foldl_max_le_acc rest (max acc p.1))
    · exact ih (max acc q.1) hmem

theorem dictMax_mem_le (d : List (Nat × Nat)) (p : Nat × Nat) (h : p ∈ d) :
    p.1 ≤ dictMax d :=
  mem_le_foldl_max d 0 p h

theorem loadHexData_length (d : List (Nat × Nat)) :
    (loadHexData d).length = dictMax d + 1 := by
  unfold loadHexData
  rw [foldl_set_length]
  simp

theorem cliRun_count (env : Env) (v p : String) :
    (cliRun env v p).1.countP isDisconnect = 0 := by
  unfold cliRun
  repeat' split
  all_goals simp [List.countP_cons, isDisconnect]

theorem cliRun_mem (env : Env) (v p : String) (e : Ev) (h : e ∈ (cliRun env v p).1) :
    e = Ev.scanUsb ∨ e = Ev.connectDev := by
  unfold cliRun at h
  repeat' split at h
  all_goals simp at h
  all_goals tauto

theorem writeDevicePhase_count (env : Env) (s : Int) (d : List Nat) :
    ((writeDevicePhase env s d).2 = none →
      (writeDevicePhase env s d).1.countP isDisconnect = 1) ∧
    (writeDevicePhase env s d).1.countP isDisconnect ≤ 1 := by
  unfold writeDevicePhase
  repeat' split
  all_goals simp [List.countP_cons, isDisconnect]

theorem infoRun_count (env : Env) :
    ((infoRun env).2 = none → (infoRun env).1.countP isDisconnect = 1) ∧
    (infoRun env).1.countP isDisconnect ≤ 1 := by
  unfold infoRun
  split
  all_goals simp [List.countP_cons, isDisconnect]

theorem writeRun_count (env : Env) (a o f : String) :
    ((writeRun env a o f).2 = none → (writeRun env a o f).1.countP isDisconnect = 1) ∧
    (writeRun env a o f).1.countP isDisconnect ≤ 1 := by
  unfold writeRun
  repeat' split
  all_goals first
    | exact writeDevicePhase_count env _ _
    | simp [List.countP_cons, isDisconnect]

theorem readRun_count (env : Env) (a l : String) (f : Option String) :
    ((readRun env a l f).2 = none → (readRun env a l f).1.countP isDisconnect = 1) ∧
    (readRun env a l f).1.countP isDisconnect ≤ 1 := by
  unfold readRun
  repeat' split
  all_goals simp [List.countP_cons, isDisconnect]

theorem eraseAllPath_count (env : Env) :
    ((eraseAllPath env).2 = none → (eraseAllPath env).1.countP isDisconnect = 1) ∧
    (eraseAllPath env).1.countP isDisconnect ≤ 1 := by
  unfold eraseAllPath
  split
  all_goals simp [List.countP_cons, isDisconnect]

theorem eraseRun_count (env : Env) (a : String) (l : Option String) (m : Bool) :
    ((eraseRun env a l m).2 = none → (eraseRun env a l m).1.countP isDisconnect = 1) ∧
    (eraseRun env a l m).1.countP isDisconnect ≤ 1 := by
  unfold eraseRun
  repeat' split
  all_goals first
    | exact eraseAllPath_count env
    | simp [List.countP_cons, isDisconnect]

theorem unlockRun_count (env : Env) (k : Option String) :
    ((unlockRun env k).2 = none → (unlockRun env k).1.countP isDisconnect = 1) ∧
    (unlockRun env k).1.countP isDisconnect ≤ 1 := by
  unfold unlockRun
  repeat' split
  all_goals first
    | exact eraseAllPath_count env
    | simp [List.countP_cons, isDisconnect]

theorem fillRun_count (env : Env) (a l pt : String) :
    ((fillRun env a l pt).2 = none → (fillRun env a l pt).1.countP isDisconnect = 1) ∧
    (fillRun env a l pt).1.countP isDisconnect ≤ 1 := by
  unfold fillRun
  repeat' split
  all_goals simp [List.countP_cons, isDisconnect]

theorem cmdRun_count (env : Env) (c : Cmd) :
    ((cmdRun env c).2 = none → (cmdRun env c).1.countP isDisconnect = 1) ∧
    (cmdRun env c).1.countP isDisconnect ≤ 1 := by
  cases c with
  | info => exact infoRun_count env
  | write a o f => exact writeRun_count env a o f
  | read a l f => exact readRun_count env a l f
  | erase a l m => exact eraseRun_count env a l m
  | unlock k => exact unlockRun_count env k
  | fill a l p => exact fillRun_count env a l p

/-- C1 (counterexample to the claim as stated): in the `read` workflow with
an output file, a save failure is raised after the command's own
`disconnect`, so the top-level handler disconnects a second time — the
process reports the error after two `disconnect` calls, not exactly one. -/
theorem claim_C1_counterexample :
    (mainRun envSaveFail "0x15A2" "0x0073" (Cmd.read "0x0" "0x4" (some "out.bin"))).1.countP
        isDisconnect = 2 ∧
    (mainRun envSaveFail "0x15A2" "0x0073" (Cmd.read "0x0" "0x4" (some "out.bin"))).2 =
      some "IOError: could not write file [out.bin]" := by
  constructor
  · rfl
  · rfl

/-- C1 (amended): every exit path of the six orchestrated workflows
(info, write, read, erase, unlock, fill) performs at least one and at most
two `disconnect` calls; a successful exit performs exactly one.  The only
two-`disconnect` paths are errors raised after the workflow's own
`disconnect` (the save phase of `read`), where the top-level handler
disconnects again before reporting the error. -/
theorem claim_C1 (env : Env) (vid pid : String) (c : Cmd) :
    1 ≤ (mainRun env vid pid c).1.countP isDisconnect ∧
    (mainRun env vid pid c).1.countP isDisconnect ≤ 2 ∧
    ((mainRun env vid pid c).2 = none →
      (mainRun env vid pid c).1.countP isDisconnect = 1) := by
  have hc1 := cliRun_count env vid pid
  have hcc := cmdRun_count env c
  unfold mainRun runMain
  rcases hcli : cliRun env vid pid with ⟨tr1, res1⟩
  rw [hcli] at hc1
  rcases hcmd : cmdRun env c with ⟨tr2, res2⟩
  rw [hcmd] at hcc
  cases res1 with
  | some m =>
    simp [List.countP_append, List.countP_cons, isDisconnect, hc1]
  | none =>
    cases res2 with
    | none =>
      have h2 := hcc.1 rfl
      simp [List.countP_append, hc1, h2]
    | some m =>
      have h2 := hcc.2
      simp at h2
      simp [List.countP_append, List.countP_cons, isDisconnect, hc1]
      omega

/-- C1 (witness): a concrete successful `info` run performs exactly one
`disconnect`. -/
theorem claim_C1_witness :
    (mainRun envOKBin "0x15A2" "0x0073" Cmd.info).1.countP isDisconnect = 1 :=
  (claim_C1 envOKBin "0x15A2" "0x0073" Cmd.info).2.2 (by rfl)

theorem wbe_append_of_clean (l1 l2 : List Ev)
    (h : ∀ e ∈ l1, isWriteMem e = false ∧ isEraseAll e = false) :
    writeBeforeErase (l1 ++ l2) = writeBeforeErase l2 := by
  induction l1 with
  | nil => rfl
  | cons e rest ih =>
    have he := h e (List.mem_cons_self e rest)
    have htail := ih (fun x hx => h x (List.mem_cons_of_mem e hx))
    simp [writeBeforeErase, he.1, he.2, htail]

theorem wbe_eraseFirst (rest : List Ev) :
    writeBeforeErase (Ev.flashEraseAllUnsecure :: rest) = false := by
  simp [writeBeforeErase, isWriteMem, isEraseAll]

theorem writeRun_trace (env : Env) (a o f : String) :
    (writeRun env a o f).1 = [] ∨
    ∃ rest, (writeRun env a o f).1 = Ev.flashEraseAllUnsecure :: rest := by
  unfold writeRun writeDevicePhase
  repeat' split
  all_goals simp

/-- C2 (counterexample to the claim as stated): with a byte offset of 5 and
a loaded image of 3 bytes the post-offset image is "empty" in the claim's
sense (offset at least the length), yet `write_memory` is still invoked —
the guard `if foffset < len(data)` merely skips the slicing. -/
theorem claim_C2_counterexample :
    Ev.writeMemory 0 [1, 2, 3] ∈
      (mainRun envOKBin "0x15A2" "0x0073" (Cmd.write "0x0" "0x5" "a.bin")).1 ∧
    (([1, 2, 3] : List Nat).length : Int) ≤ 5 := by
  constructor
  · decide
  · decide

/-- C2 (amended): in every write workflow no `write_memory` call ever
precedes the mass-erase call; an offset at least the length of the loaded
data leaves the data unsliced (the full image, not an empty one); and once
the erase call succeeds `write_memory` is always invoked, whatever the
post-offset data is. -/
theorem claim_C2 :
    (∀ (env : Env) (vid pid a o f : String),
       writeBeforeErase (mainRun env vid pid (Cmd.write a o f)).1 = false) ∧
    (∀ (data : List Nat) (n : Int), (data.length : Int) ≤ n → applyOffset data n = data) ∧
    (∀ (env : Env) (s : Int) (d : List Nat), env.ok Ev.flashEraseAllUnsecure = true →
       Ev.writeMemory s d ∈ (writeDevicePhase env s d).1) := by
  refine ⟨?_, applyOffset_of_ge, writeDevicePhase_mem⟩
  intro env vid pid a o f
  unfold mainRun runMain
  simp only [cmdRun]
  rcases hcli : cliRun env vid pid with ⟨tr1, res1⟩
  have hclean : ∀ e ∈ tr1, isWriteMem e = false ∧ isEraseAll e = false := by
    intro e he
    have hme := cliRun_mem env vid pid e (by rw [hcli]; exact he)
    rcases hme with h | h <;> subst h <;> exact ⟨rfl, rfl⟩
  have hw := writeRun_trace env a o f
  rcases hcmd : writeRun env a o f with ⟨tr2, res2⟩
  rw [hcmd] at hw
  simp at hw
  cases res1 with
  | some m =>
    rw [wbe_append_of_clean _ _ hclean]
    rfl
  | none =>
    cases res2 with
    | none =>
      rw [wbe_append_of_clean _ _ hclean]
      rcases hw with h | ⟨rest, h⟩
      · rw [h]; rfl
      · rw [h]; exact wbe_eraseFirst rest
    | some m =>
      dsimp only
      rw [List.append_assoc, wbe_append_of_clean _ _ hclean]
      rcases hw with h | ⟨rest, h⟩
      · rw [h]; rfl
      · rw [h, List.cons_append]; exact wbe_eraseFirst (rest ++ [Ev.disconnect])

/-- C2 (witness): concrete instances of the amended statement. -/
theorem claim_C2_witness :
    applyOffset [9, 9] 7 = [9, 9] ∧
    Ev.writeMemory 4096 [9, 9] ∈ (writeDevicePhase envOKBin 4096 [9, 9]).1 :=
  ⟨claim_C2.2.1 [9, 9] 7 (by decide), claim_C2.2.2 envOKBin 4096 [9, 9] (by rfl)⟩

/-- C3 (code bug): the guard `if os.path.lexists(file)` has inverted
polarity.  When the input file exists the workflow aborts with the message
`File does not exist [...]`, and when the file is really missing the guard
passes and the loader is reached (its open then fails). -/
theorem claim_C3 :
    (mainRun envFileExists "0x15A2" "0x0073" (Cmd.write "0x0" "0x0" "image.bin")).2 =
      some "File does not exist [image.bin]" ∧
    (mainRun envMissingBin "0x15A2" "0x0073" (Cmd.write "0x0" "0x0" "image.bin")).2 =
      some "IOError: could not read file [image.bin]" := by
  constructor
  · rfl
  · rfl

/-- C5 (counterexample to the claim as stated): an offset of 5 on a 2-byte
image yields the untouched image, not an empty one; and the offset never
advances the base address — with start address 0x100 and offset 1 the
write targets 0x100, not 0x101. -/
theorem claim_C5_counterexample :
    applyOffset [1, 2] 5 = [1, 2] ∧ ([1, 2] : List Nat) ≠ [] ∧
    Ev.writeMemory 256 [2, 3] ∈
      (mainRun envOKBin "0x15A2" "0x0073" (Cmd.write "0x100" "0x1" "a.bin")).1 ∧
    Ev.writeMemory 257 [2, 3] ∉
      (mainRun envOKBin "0x15A2" "0x0073" (Cmd.write "0x100" "0x1" "a.bin")).1 := by
  refine ⟨by decide, by decide, by decide, by decide⟩

/-- C5 (amended): applying a byte offset `n` smaller than the image length
drops the first `n` bytes; the base address is never advanced (the device
phase writes at exactly the supplied start address); and an offset of at
least the image length leaves the data unchanged — the full image, never an
error and never an empty result. -/
theorem claim_C5 :
    (∀ (data : List Nat) (n : Nat), (n : Int) < (data.length : Int) →
       applyOffset data n = data.drop n) ∧
    (∀ (data : List Nat) (n : Int), (data.length : Int) ≤ n → applyOffset data n = data) ∧
    (∀ (env : Env) (s : Int) (d : List Nat), env.ok Ev.flashEraseAllUnsecure = true →
       Ev.writeMemory s d ∈ (writeDevicePhase env s d).1) :=
  ⟨applyOffset_of_lt, applyOffset_of_ge, writeDevicePhase_mem⟩

/-- C5 (witness): concrete instances of the amended statement. -/
theorem claim_C5_witness :
    applyOffset [7, 8, 9] 1 = [8, 9] ∧ applyOffset [7, 8] 2 = [7, 8] ∧
    Ev.writeMemory 10 [8, 9] ∈ (writeDevicePhase envMissingBin 10 [8, 9]).1 :=
  ⟨claim_C5.1 [7, 8, 9] 1 (by decide), claim_C5.2.1 [7, 8] 2 (by decide),
   claim_C5.2.2 envMissingBin 10 [8, 9] (by rfl)⟩

theorem cliRun_no_memop (env : Env) (v p : String) :
    ∀ e ∈ (cliRun env v p).1, isMemOp e = false := by
  intro e he
  rcases cliRun_mem env v p e he with h | h <;> subst h <;> rfl

theorem writeRun_badext (env : Env) (a o f : String)
    (hne : f ≠ "") (hext : supportedExt f = false) :
    (writeRun env a o f).1 = [] ∧ (writeRun env a o f).2 ≠ none ∧
    (∀ sa fo, pyInt 0 a = some sa → pyInt 0 o = some fo →
       (writeRun env a o f).2 = some "Not supported file type !") := by
  unfold writeRun
  cases ha : pyInt 0 a with
  | none =>
    refine ⟨rfl, by simp, ?_⟩
    intro sa fo h1 h2
    simp at h1
  | some sa =>
    cases ho : pyInt 0 o with
    | none =>
      refine ⟨rfl, by simp, ?_⟩
      intro sa2 fo h1 h2
      simp at h2
    | some fo =>
      dsimp only
      rw [if_pos ⟨hne, hext⟩]
      exact ⟨rfl, by simp, fun _ _ _ _ => rfl⟩

/-- C4 (counterexample to the claim as stated): `write -f image.xyz` does
fail before the write body, but the `cli` group callback has already issued
the discovery and connect calls, so the run is not free of device calls. -/
theorem claim_C4_counterexample :
    (mainRun envOKBin "0x15A2" "0x0073" (Cmd.write "0x0" "0x0" "image.xyz")).1 =
      [Ev.scanUsb, Ev.connectDev, Ev.disconnect] ∧
    (mainRun envOKBin "0x15A2" "0x0073" (Cmd.write "0x0" "0x0" "image.xyz")).2 =
      some "Not supported file type !" ∧
    Ev.connectDev ∈ (mainRun envOKBin "0x15A2" "0x0073" (Cmd.write "0x0" "0x0" "image.xyz")).1 := by
  refine ⟨by rfl, by rfl, by decide⟩

/-- C4 (amended): a write invocation whose file has an unsupported
extension always fails, and no memory-touching device call (erase, write,
read, fill, security-disable) is ever issued — the only device traffic is
the discovery/connect performed by the `cli` group callback before the
subcommand validates anything; when the address and offset parse and the
group callback succeeds, the failure is the unsupported-file-type error. -/
theorem claim_C4 (env : Env) (vid pid addr offset file : String)
    (hne : file ≠ "") (hext : supportedExt file = false) :
    (mainRun env vid pid (Cmd.write addr offset file)).2 ≠ none ∧
    (∀ e ∈ (mainRun env vid pid (Cmd.write addr offset file)).1, isMemOp e = false) ∧
    (∀ sa fo, pyInt 0 addr = some sa → pyInt 0 offset = some fo →
       (cliRun env vid pid).2 = none →
       (mainRun env vid pid (Cmd.write addr offset file)).2 =
         some "Not supported file type !") := by
  have hw := writeRun_badext env addr offset file hne hext
  have hmem := cliRun_no_memop env vid pid
  unfold mainRun runMain
  simp only [cmdRun]
  rcases hcli : cliRun env vid pid with ⟨tr1, res1⟩
  rw [hcli] at hmem
  rcases hcmd : writeRun env addr offset file with ⟨tr2, res2⟩
  rw [hcmd] at hw
  simp at hw
  cases res1 with
  | some m =>
    refine ⟨by simp, ?_, ?_⟩
    · intro e he
      rcases List.mem_append.mp he with h | h
      · exact hmem e h
      · simp at h; subst h; rfl
    · intro sa fo h1 h2 hok
      simp at hok
  | none =>
    cases res2 with
    | none => exact absurd rfl hw.2.1
    | some m =>
      have htr2 : tr2 = [] := hw.1
      subst htr2
      refine ⟨by simp, ?_, ?_⟩
      · intro e he
        simp at he
        rcases he with h | h
        · exact hmem e h
        · subst h; rfl
      · intro sa fo h1 h2 _
        have := hw.2.2 sa fo h1 h2
        simp at this
        simp [this]

/-- C4 (witness): a concrete bad-extension write fails with the
unsupported-file-type error. -/
theorem claim_C4_witness :
    (mainRun envOKBin "0x15A2" "0x0073" (Cmd.write "0x1" "0x2" "firmware.xyz")).2 =
      some "Not supported file type !" :=
  (claim_C4 envOKBin "0x15A2" "0x0073" "0x1" "0x2" "firmware.xyz" (by decide)
      (by decide)).2.2 1 2 (by rfl) (by rfl) (by rfl)

/-- C7 (counterexample to the claim as stated): a `.s` file is rejected by
the source's guard, although the claim maps `.s` to MotorolaSRecord. -/
theorem claim_C7_counterexample :
    detectFormat "image.s" = none ∧
    detectFormat "image.s" ≠ some FileFormat.MotorolaSRecord := by
  refine ⟨by decide, by decide⟩

/-- C7 (amended): format detection is the case-insensitive extension match
`.bin` to RawBinary, `.hex` to IntelHexRecord, `.s19`/`.srec` (but not
`.s`) to MotorolaSRecord, and any other extension is rejected, never a
silent fallback. -/
theorem claim_C7 (f : String) : detectFormat f = specFormatOf f := by
  unfold detectFormat specFormatOf supportedExt
  cases h1 : endsWithExt (pyLower f) ".bin" <;>
    cases h2 : endsWithExt (pyLower f) ".hex" <;>
      cases h3 : endsWithExt (pyLower f) ".s19" <;>
        cases h4 : endsWithExt (pyLower f) ".srec" <;>
          simp [h1, h2, h3, h4]

theorem parseBackdoorKey_eq_S (key : String) (h : key.data.head? = some 'S') :
    parseBackdoorKey key =
      if key.length < 18 then Except.error "Short key, use 16 ASCII chars !"
      else Except.ok ((key.data.drop 2).map (fun k => (k.toNat : Int))) := by
  unfold parseBackdoorKey
  cases hd : key.data with
  | nil => rw [hd] at h; simp at h
  | cons c0 rest =>
    rw [hd] at h
    simp at h
    subst h
    dsimp only
    rw [if_pos rfl]

theorem parseBackdoorKey_eq_hex (key : String) (c : Char)
    (hc : key.data.head? = some c) (hne : c ≠ 'S') :
    parseBackdoorKey key =
      if key.length < 34 then Except.error "Short key, use 32 HEX chars !"
      else
        match hexPairs (key.data.drop 2) with
        | some l => Except.ok l
        | none => Except.error "Unsupported HEX char in Key !" := by
  unfold parseBackdoorKey
  cases hd : key.data with
  | nil => rw [hd] at hc; simp at hc
  | cons c0 rest =>
    rw [hd] at hc
    simp at hc
    subst hc
    dsimp only
    rw [if_neg hne]

/-- C6 (counterexample to the claim as stated): a 19-character ASCII key
(17 characters after the prefix) is longer than documented, yet it is
accepted and decodes to 17 bytes — a mismatched length is not a validation
error. -/
theorem claim_C6_counterexample :
    parseBackdoorKey "S:AAAAAAAAAAAAAAAAA" = Except.ok (List.replicate 17 65) ∧
    (List.replicate 17 (65 : Int)).length ≠ 16 := by
  constructor
  · rfl
  · decide

/-- C6 (amended): under both encodings a key shorter than documented (18
total ASCII characters, 34 total hex characters) is a validation error and
a key of exactly the documented length decodes to exactly 16 bytes, but
longer inputs are accepted silently and decode to more than 16 bytes: the
ASCII branch yields `len - 2` bytes and the hex branch `ceil((len-2)/2)`
bytes. -/
theorem claim_C6 (key : String) :
    (key.data.head? = some 'S' →
       (key.length < 18 →
          parseBackdoorKey key = Except.error "Short key, use 16 ASCII chars !") ∧
       (18 ≤ key.length → ∃ k, parseBackdoorKey key = Except.ok k ∧
          k.length = key.length - 2 ∧ 16 ≤ k.length ∧ (key.length = 18 → k.length = 16))) ∧
    (∀ c, key.data.head? = some c → c ≠ 'S' →
       (key.length < 34 →
          parseBackdoorKey key = Except.error "Short key, use 32 HEX chars !") ∧
       (∀ k, parseBackdoorKey key = Except.ok k →
          34 ≤ key.length ∧ k.length = (key.length - 2 + 1) / 2 ∧ 16 ≤ k.length ∧
          (key.length = 34 → k.length = 16))) := by
  have hlen : key.length = key.data.length := rfl
  constructor
  · intro hS
    rw [parseBackdoorKey_eq_S key hS]
    constructor
    · intro h
      rw [if_pos h]
    · intro h
      rw [if_neg (not_lt.mpr h)]
      refine ⟨_, rfl, ?_, ?_, ?_⟩
      · simp [List.length_map, List.length_drop, ← hlen]
      · simp [List.length_map, List.length_drop, ← hlen]
        omega
      · intro he
        simp [List.length_map, List.length_drop, ← hlen, he]
  · intro c hc hne
    rw [parseBackdoorKey_eq_hex key c hc hne]
    constructor
    · intro h
      rw [if_pos h]
    · intro k hk
      by_cases hlt : key.length < 34
      · rw [if_pos hlt] at hk
        cases hk
      · rw [if_neg hlt] at hk
        cases hp : hexPairs (key.data.drop 2) <;> rw [hp] at hk
        · cases hk
        · simp at hk
          subst hk
          have hl := hexPairs_length (key.data.drop 2) _ hp
          rw [List.length_drop, ← hlen] at hl
          refine ⟨by omega, hl, by omega, fun he => by omega⟩

/-- C6 (witness): a 34-character hex key decodes through the hex branch to
exactly 16 bytes. -/
theorem claim_C6_witness :
    34 ≤ (String.length "X:00112233445566778899AABBCCDDEEFF") ∧
    ([0, 17, 34, 51, 68, 85, 102, 119, 136, 153, 170, 187, 204, 221, 238, 255] :
        List Int).length =
      ((String.length "X:00112233445566778899AABBCCDDEEFF") - 2 + 1) / 2 ∧
    16 ≤ ([0, 17, 34, 51, 68, 85, 102, 119, 136, 153, 170, 187, 204, 221, 238, 255] :
        List Int).length := by
  have h := ((claim_C6 "X:00112233445566778899AABBCCDDEEFF").2 'X' (by rfl) (by decide)).2
    [0, 17, 34, 51, 68, 85, 102, 119, 136, 153, 170, 187, 204, 221, 238, 255] (by rfl)
  exact ⟨h.1, h.2.1, h.2.2.1⟩

/-- C10 (counterexample to the claim as stated): Python `int(s, 16)` also
accepts a sign inside a two-character slice, so the key
`X:+1+1...` parses successfully although `+` is not a hex digit — a
non-hex character does not always raise a validation error. -/
theorem claim_C10_counterexample :
    digitVal 16 '+' = none ∧
    parseBackdoorKey "X:+1+1+1+1+1+1+1+1+1+1+1+1+1+1+1+1" =
      Except.ok [1, 1, 1, 1, 1, 1, 1, 1, 1, 1, 1, 1, 1, 1, 1, 1] := by
  constructor
  · decide
  · rfl

/-- C10 (amended): any key whose first character differs from `S` takes the
hex branch: the first two characters are discarded without being checked
(two keys differing only there parse identically), a total length below 34
is rejected, the remainder is parsed as consecutive two-character slices
through Python `int(s, 16)` (which tolerates sign and whitespace characters
inside a slice), a slice that fails conversion is a validation error, and
on any such error no `flash_security_disable` call is issued. -/
theorem claim_C10 :
    (∀ (c c2 d d2 : Char) (rest : List Char), c ≠ 'S' → c2 ≠ 'S' →
       parseBackdoorKey (String.mk (c :: d :: rest)) =
         parseBackdoorKey (String.mk (c2 :: d2 :: rest))) ∧
    (∀ (key : String) (c : Char), key.data.head? = some c → c ≠ 'S' → key.length < 34 →
       parseBackdoorKey key = Except.error "Short key, use 32 HEX chars !") ∧
    (∀ (key : String) (c : Char), key.data.head? = some c → c ≠ 'S' → 34 ≤ key.length →
       (∀ k, hexPairs (key.data.drop 2) = some k → parseBackdoorKey key = Except.ok k) ∧
       (hexPairs (key.data.drop 2) = none →
          parseBackdoorKey key = Except.error "Unsupported HEX char in Key !")) ∧
    (∀ (env : Env) (vid pid key e : String) (k : List Int),
       parseBackdoorKey key = Except.error e →
       Ev.flashSecurityDisable k ∉ (mainRun env vid pid (Cmd.unlock (some key))).1) := by
  refine ⟨?_, ?_, ?_, ?_⟩
  · intro c c2 d d2 rest h1 h2
    rw [parseBackdoorKey_eq_hex (String.mk (c :: d :: rest)) c (by rfl) h1,
        parseBackdoorKey_eq_hex (String.mk (c2 :: d2 :: rest)) c2 (by rfl) h2]
    rfl
  · intro key c hc hne h
    rw [parseBackdoorKey_eq_hex key c hc hne, if_pos h]
  · intro key c hc hne h
    rw [parseBackdoorKey_eq_hex key c hc hne, if_neg (not_lt.mpr h)]
    constructor
    · intro k hk
      rw [hk]
    · intro hk
      rw [hk]
  · intro env vid pid key e k hperr
    unfold mainRun runMain
    simp only [cmdRun]
    rcases hcli : cliRun env vid pid with ⟨tr1, res1⟩
    have hnm : Ev.flashSecurityDisable k ∉ tr1 := by
      intro hmem
      rcases cliRun_mem env vid pid _ (by rw [hcli]; exact hmem) with h | h <;> simp at h
    cases res1 with
    | some m =>
      simp [List.mem_append, hnm]
    | none =>
      simp only [unlockRun]
      rw [hperr]
      simp [List.mem_append, hnm]

/-- C10 (witness): concrete applications of the amended statement — the
branch taken for a `Z:`-prefixed key equals the one for `X:`, a short
non-`S` key errors, and a 34-character hex key parses through the pair
loop. -/
theorem claim_C10_witness :
    parseBackdoorKey "Z!000102030405060708090A0B0C0D0E0F" =
      parseBackdoorKey "X:000102030405060708090A0B0C0D0E0F" ∧
    parseBackdoorKey "Q:0102" = Except.error "Short key, use 32 HEX chars !" ∧
    parseBackdoorKey "X:FF000000000000000000000000000000" =
      Except.ok [255, 0, 0, 0, 0, 0, 0, 0, 0, 0, 0, 0, 0, 0, 0, 0] ∧
    Ev.flashSecurityDisable [1] ∉
      (mainRun envOKBin "0x15A2" "0x0073" (Cmd.unlock (some "Q:0102"))).1 := by
  refine ⟨?_, ?_, ?_, ?_⟩
  · exact claim_C10.1 'Z' 'X' '!' ':'
      "000102030405060708090A0B0C0D0E0F".data (by decide) (by decide)
  · exact claim_C10.2.1 "Q:0102" 'Q' (by rfl) (by decide) (by decide)
  · exact (claim_C10.2.2.1 "X:FF000000000000000000000000000000" 'X' (by rfl) (by decide)
      (by decide)).1 [255, 0, 0, 0, 0, 0, 0, 0, 0, 0, 0, 0, 0, 0, 0, 0] (by rfl)
  · exact claim_C10.2.2.2 envOKBin "0x15A2" "0x0073" "Q:0102"
      "Short key, use 32 HEX chars !" [1]
      (claim_C10.2.1 "Q:0102" 'Q' (by rfl) (by decide) (by decide))

/-- C8 (counterexample to the claim as stated): for the sparse dictionary
with the single entry address 2, value 171, the built array spans addresses
0 through 2 (three bytes, the leading two filled with 0xFF), not the
claimed span from the minimum address; and the write targets the
CLI-supplied start address 7, not the minimum address 2. -/
theorem claim_C8_counterexample :
    loadHexData [(2, 171)] = [255, 255, 171] ∧
    ([255, 255, 171] : List Nat) ≠ [171] ∧
    Ev.writeMemory 7 [255, 255, 171] ∈
      (mainRun envHexDict "0x15A2" "0x0073" (Cmd.write "0x7" "0x0" "a.hex")).1 := by
  refine ⟨by decide, by decide, by decide⟩

/-- C8 (amended): the Intel-hex loader builds a byte array spanning
addresses `0` to `max_address` — length `max_address + 1` — in which every
listed address holds its dictionary value and every other address
(including those below the minimum address) holds the fill byte 0xFF; the
image's base address is the CLI-supplied start address, which the hex
branch never alters. -/
theorem claim_C8 (d : List (Nat × Nat)) (hne : d ≠ []) (hnd : (d.map Prod.fst).Nodup) :
    (loadHexData d).length = dictMax d + 1 ∧
    (∀ p ∈ d, (loadHexData d)[p.1]? = some p.2) ∧
    (∀ i, i ≤ dictMax d → i ∉ d.map Prod.fst → (loadHexData d)[i]? = some 255) ∧
    (∀ (env : Env) (addr offset : String) (sa fo : Int),
       pyInt 0 addr = some sa → pyInt 0 offset = some fo →
       env.lexists "a.hex" = false → env.hexFile "a.hex" = some d →
       writeRun env addr offset "a.hex" =
         writeDevicePhase env sa (applyOffset (loadHexData d) fo)) := by
  refine ⟨loadHexData_length d, ?_, ?_, ?_⟩
  · intro p hp
    have hle := dictMax_mem_le d p hp
    have hre : ((p.1, p.2) : Nat × Nat) = p := rfl
    unfold loadHexData
    exact foldl_set_get_of_mem d _ p.1 p.2 (by rw [hre]; exact hp) hnd
      (by rw [List.length_replicate]; omega)
  · intro i h1 h2
    unfold loadHexData
    rw [foldl_set_get_of_not_mem d _ i h2, List.getElem?_replicate, if_pos (by omega)]
  · intro env addr offset sa fo ha ho hlex hhex
    unfold writeRun
    rw [ha]
    dsimp only
    rw [ho]
    dsimp only
    rw [if_neg (by decide : ¬("a.hex" ≠ "" ∧ supportedExt "a.hex" = false))]
    rw [hlex]
    rw [if_neg (by simp : ¬(false = true))]
    unfold loadImage
    rw [if_neg (by decide : ¬(endsWithExt (pyLower "a.hex") ".bin" = true))]
    rw [if_pos (by decide : endsWithExt (pyLower "a.hex") ".hex" = true)]
    rw [hhex]
    dsimp only
    rw [if_neg hne]

/-- C8 (witness): the amended statement evaluated on the one-entry
dictionary and a concrete environment. -/
theorem claim_C8_witness :
    (loadHexData [(2, 171)]).length = dictMax [(2, 171)] + 1 ∧
    (loadHexData [(2, 171)])[2]? = some 171 ∧
    (loadHexData [(2, 171)])[0]? = some 255 ∧
    writeRun envHexDict "0x7" "0x0" "a.hex" =
      writeDevicePhase envHexDict 7 (applyOffset (loadHexData [(2, 171)]) 0) := by
  have h := claim_C8 [(2, 171)] (by decide) (by decide)
  exact ⟨h.1, h.2.1 (2, 171) (by decide), h.2.2.1 0 (by decide) (by decide),
    h.2.2.2 envHexDict "0x7" "0x0" 7 0 (by rfl) (by rfl) (by rfl) (by rfl)⟩

theorem empty_append_str (s : String) : "" ++ s = s := by
  cases s
  rfl

theorem spaces_zero_append (s : String) : spacesStr 0 ++ s = s := by
  cases s
  rfl

theorem hexdump_first_row (data : List Nat) (saddr w : Nat) (sep : Char)
    (hw : 0 < w) (hw16 : w ≤ 16) (hne : data ≠ []) :
    (hexdumpLines data saddr w sep)[2]? =
      some (" " ++ fmtHex (saddr - saddr % w) 8 ++ " | " ++
        padRightStr (spacesStr (3 * (saddr % w)) ++ hexArea (data.take (w - saddr % w)))
          (3 * w) ++
        "| " ++ (spacesStr (saddr % w) ++ textArea sep (data.take (w - saddr % w)))) := by
  have hclamp : (if w > 16 then 16 else w) = w := if_neg (by omega)
  have hlen1 : 1 ≤ data.length := List.length_pos.mpr hne
  unfold hexdumpLines
  dsimp only
  rw [hclamp]
  have hn : 0 < (data.length + saddr % w + w - 1) / w :=
    Nat.div_pos (by omega) hw
  rw [List.getElem?_append]
  rw [if_pos (by
    simp only [List.length_append, List.length_cons, List.length_nil, List.length_map,
      List.length_range]
    omega)]
  rw [List.getElem?_append_right (by simp)]
  simp only [List.length_cons, List.length_nil]
  rw [List.getElem?_map, List.getElem?_range hn]
  by_cases ho : 0 < saddr % w
  · simp [hexdumpRow, ho]
  · have ho0 : saddr % w = 0 := by omega
    simp [hexdumpRow, ho, ho0, empty_append_str, spaces_zero_append]

/-- C9: the first rendered data row of the hexdump is left-padded with
`offset = saddr mod w` blank hex-byte columns (three spaces each) and
`offset` blank ASCII columns before the data bytes begin, so the byte at
the base address occupies column `offset + 1`; in particular for base
address 0x1003 and width 16 the first three hex/ASCII columns are blank and
the data starts at the fourth column of the row addressed 0x1000. -/
theorem claim_C9 :
    (∀ (data : List Nat) (saddr w : Nat) (sep : Char), 0 < w → w ≤ 16 → data ≠ [] →
       (hexdumpLines data saddr w sep)[2]? =
         some (" " ++ fmtHex (saddr - saddr % w) 8 ++ " | " ++
           padRightStr (spacesStr (3 * (saddr % w)) ++ hexArea (data.take (w - saddr % w)))
             (3 * w) ++
           "| " ++ (spacesStr (saddr % w) ++ textArea sep (data.take (w - saddr % w))))) ∧
    (∀ (data : List Nat) (sep : Char), data ≠ [] →
       (hexdumpLines data 4099 16 sep)[2]? =
         some (" " ++ fmtHex 4096 8 ++ " | " ++
           padRightStr (spacesStr 9 ++ hexArea (data.take 13)) 48 ++
           "| " ++ (spacesStr 3 ++ textArea sep (data.take 13)))) := by
  constructor
  · exact hexdump_first_row
  · intro data sep hne
    have h := hexdump_first_row data 4099 16 sep (by norm_num) (by norm_num) hne
    norm_num at h
    exact h

/-- C9 (witness): the single byte 0x41 dumped from base address 0x1003. -/
theorem claim_C9_witness :
    (hexdumpLines [65] 4099 16 '.')[2]? =
      some (" " ++ fmtHex 4096 8 ++ " | " ++
        padRightStr (spacesStr 9 ++ hexArea ([65].take 13)) 48 ++
        "| " ++ (spacesStr 3 ++ textArea '.' ([65].take 13))) :=
  claim_C9.2 [65] '.' (by decide)
